import Mathlib

/-!
Shallow embedding of the core of the rust-finprim library: the rounding-mode
abstraction (src/floatlike.rs, src/rounding.rs), the root-finding engine
(src/utils/newton_raphson.rs, src/utils/halley.rs), the error model
(src/error.rs), and the rate-solving layer (src/rate/irr/irr.rs,
src/tvm/pv.rs, src/derivatives/pv.rs).

Scalar values (the FloatLike trait instances f32, f64, Decimal) are
idealised as exact rationals: arithmetic is exact, division by zero yields
zero (never reached on the paths proved here unless noted).  Real-exponent
powers (FloatLike::powf at fractional exponents, used by xnpv/xirr) are
modelled by an explicit function parameter fpow; integer-exponent powers
(powi in npv) are modelled by monoid powers on ℚ.  Panics (unwrap on an
empty slice) are modelled as Option.none.
-/

namespace RustFinPrim

/-- Rounding modes, from src/rounding.rs. -/
inductive RoundingMode : Type
  | HalfToEven
  | HalfAwayFromZero
  | HalfTowardZero
  | TowardZero
  | AwayFromZero
  | ToNegativeInfinity
  | ToInfinity
deriving DecidableEq, Repr

/-- Root finding errors, from src/error.rs. -/
inductive RootFindingError (T : Type) : Type
  | FailedToConverge (last_x last_fx : T)
  | DivideByZero (last_x last_fx : T)
  | InvalidBracket
deriving DecidableEq, Repr

/-- Library-level error enum, from src/error.rs. -/
inductive FinPrimError (T : Type) : Type
  | DivideByZero
  | RootFindingError (e : RootFindingError T)
deriving DecidableEq, Repr

/-- Rust `f64::round` / `f32::round`: nearest integer, ties away from zero.
Used by round_with_mode in src/floatlike.rs as the "naive" rounding. -/
def rustRound (x : ℚ) : ℤ :=
  if 0 ≤ x then ⌊x + 1 / 2⌋ else ⌈x - 1 / 2⌉

/-- The integer selected by the `match mode` block of round_with_mode in
src/floatlike.rs (the local variable `rounded`); the result of the function is
this integer divided by the scale factor.  `floor as i64 % 2 == 0` is
modelled as `fl % 2 = 0`, which agrees with the Rust remainder for the
purpose of the `== 0` test. -/
def shiftedRounded (value : ℚ) (dp : ℕ) (mode : RoundingMode) (epsilon : ℚ) : ℤ :=
  let factor : ℚ := 10 ^ dp
  let shifted : ℚ := value * factor
  let fl : ℤ := ⌊shifted⌋
  let shifted_rd : ℤ := rustRound shifted
  let diff_floor : ℚ := shifted - fl
  let ce : ℤ := ⌈shifted⌉
  match mode with
  | RoundingMode.HalfToEven =>
      if |(|diff_floor| - 1 / 2)| > epsilon then shifted_rd
      else if fl % 2 = 0 then fl else ce
  | RoundingMode.HalfTowardZero =>
      if |(|diff_floor| - 1 / 2)| > epsilon then shifted_rd
      else if shifted > 0 then fl else ce
  | RoundingMode.HalfAwayFromZero =>
      if |(|diff_floor| - 1 / 2)| > epsilon then shifted_rd
      else if shifted > 0 then ce else fl
  | RoundingMode.TowardZero => if shifted > 0 then fl else ce
  | RoundingMode.AwayFromZero => if shifted > 0 then ce else fl
  | RoundingMode.ToNegativeInfinity => fl
  | RoundingMode.ToInfinity => ce

/-- round_with_mode for the binary floating-point FloatLike instances,
from src/floatlike.rs (gen_floats): scale by 10^dp, select an integer by
mode, divide back by the factor. -/
def round_with_mode (value : ℚ) (dp : ℕ) (mode : RoundingMode) (epsilon : ℚ) : ℚ :=
  (shiftedRounded value dp mode epsilon : ℚ) / 10 ^ dp

/-- Rounding strategies of the external rust_decimal crate, used by the
Decimal implementation of round_with_mode in src/floatlike.rs. -/
inductive RoundingStrategy : Type
  | MidpointNearestEven
  | MidpointAwayFromZero
  | MidpointTowardZero
  | ToZero
  | AwayFromZero
  | ToNegativeInfinity
  | ToPositiveInfinity
deriving DecidableEq, Repr

/-- Modelled from the spec: the integer selected by the rust_decimal
rounding strategy, whose source is not part of this repository — the spec
says the fixed-point decimal representation "maps each mode directly onto
the native midpoint-rounding strategies" of the representation, with exact
`.5` boundaries (no epsilon). -/
def strategySel (value : ℚ) (dp : ℕ) (strategy : RoundingStrategy) : ℤ :=
  let factor : ℚ := 10 ^ dp
  let shifted : ℚ := value * factor
  let fl : ℤ := ⌊shifted⌋
  let ce : ℤ := ⌈shifted⌉
  let diff : ℚ := shifted - fl
  match strategy with
  | RoundingStrategy.MidpointNearestEven =>
      if diff < 1 / 2 then fl
      else if 1 / 2 < diff then ce
      else if fl % 2 = 0 then fl else ce
  | RoundingStrategy.MidpointAwayFromZero =>
      if diff < 1 / 2 then fl
      else if 1 / 2 < diff then ce
      else if 0 ≤ shifted then ce else fl
  | RoundingStrategy.MidpointTowardZero =>
      if diff < 1 / 2 then fl
      else if 1 / 2 < diff then ce
      else if 0 ≤ shifted then fl else ce
  | RoundingStrategy.ToZero => if 0 ≤ shifted then fl else ce
  | RoundingStrategy.AwayFromZero => if 0 ≤ shifted then ce else fl
  | RoundingStrategy.ToNegativeInfinity => fl
  | RoundingStrategy.ToPositiveInfinity => ce

/-- Modelled from the spec: the rust_decimal function
`round_dp_with_strategy` (external to this repository): scale by 10^dp,
select an integer by strategy with exact midpoint tests, scale back. -/
def round_dp_with_strategy (value : ℚ) (dp : ℕ) (strategy : RoundingStrategy) : ℚ :=
  (strategySel value dp strategy : ℚ) / 10 ^ dp

/-- round_with_mode for the Decimal FloatLike instance, from
src/floatlike.rs: translate the mode to a rust_decimal strategy and
delegate; the epsilon parameter is ignored. -/
def decimal_round_with_mode (value : ℚ) (dp : ℕ) (mode : RoundingMode) (epsilon : ℚ) : ℚ :=
  let strategy :=
    match mode with
    | RoundingMode.HalfToEven => RoundingStrategy.MidpointNearestEven
    | RoundingMode.HalfAwayFromZero => RoundingStrategy.MidpointAwayFromZero
    | RoundingMode.HalfTowardZero => RoundingStrategy.MidpointTowardZero
    | RoundingMode.TowardZero => RoundingStrategy.ToZero
    | RoundingMode.AwayFromZero => RoundingStrategy.AwayFromZero
    | RoundingMode.ToNegativeInfinity => RoundingStrategy.ToNegativeInfinity
    | RoundingMode.ToInfinity => RoundingStrategy.ToPositiveInfinity
  round_dp_with_strategy value dp strategy

/-- The loop of newton_raphson in src/utils/newton_raphson.rs, recursing on
the remaining iteration budget; `fx` carries the value `f x` maintained by
the Rust loop. -/
def newton_raphson_go (f f_prime : ℚ → ℚ) (tolerance : ℚ) :
    ℕ → ℚ → ℚ → Except (FinPrimError ℚ) ℚ
  | 0, x, fx => Except.error (FinPrimError.RootFindingError
      (RootFindingError.FailedToConverge x fx))
  | n + 1, x, fx =>
      if |fx| < tolerance then Except.ok x
      else
        let f_prime_x := f_prime x
        if f_prime_x = 0 then
          Except.error (FinPrimError.RootFindingError
            (RootFindingError.DivideByZero x fx))
        else
          let x2 := x - fx / f_prime_x
          newton_raphson_go f f_prime tolerance n x2 (f x2)

/-- newton_raphson from src/utils/newton_raphson.rs. -/
def newton_raphson (guess : ℚ) (f f_prime : ℚ → ℚ) (tolerance : ℚ)
    (max_iter : ℕ) : Except (FinPrimError ℚ) ℚ :=
  newton_raphson_go f f_prime tolerance max_iter guess (f guess)

/-- step_halley from src/utils/halley.rs: the numerator and denominator of
the Halley update. -/
def step_halley (f_x f_prime_x f_prime2_x : ℚ) : ℚ × ℚ :=
  let two : ℚ := 2
  (two * f_x * f_prime_x, two * f_prime_x * f_prime_x - f_x * f_prime2_x)

/-- The loop of halley in src/utils/halley.rs, recursing on the remaining
iteration budget; `fx` carries the value `f x` maintained by the Rust loop. -/
def halley_go (f f_prime f_prime2 : ℚ → ℚ) (tolerance : ℚ) :
    ℕ → ℚ → ℚ → Except (FinPrimError ℚ) ℚ
  | 0, x, fx => Except.error (FinPrimError.RootFindingError
      (RootFindingError.FailedToConverge x fx))
  | n + 1, x, fx =>
      if |fx| < tolerance then Except.ok x
      else
        let f_prime_x := f_prime x
        let f_prime2_x := f_prime2 x
        let nd := step_halley fx f_prime_x f_prime2_x
        if nd.2 = 0 then
          Except.error (FinPrimError.RootFindingError
            (RootFindingError.DivideByZero x fx))
        else
          let x2 := x - nd.1 / nd.2
          halley_go f f_prime f_prime2 tolerance n x2 (f x2)

/-- halley from src/utils/halley.rs. -/
def halley (guess : ℚ) (f f_prime f_prime2 : ℚ → ℚ) (tolerance : ℚ)
    (max_iter : ℕ) : Except (FinPrimError ℚ) ℚ :=
  halley_go f f_prime f_prime2 tolerance max_iter guess (f guess)

/-- npv from src/tvm/pv.rs: each cash flow discounted by its position index
(powi, an integer-exponent power). -/
def npv (rate : ℚ) (cash_flows : List ℚ) : ℚ :=
  (cash_flows.enum.map (fun p => p.2 / (1 + rate) ^ p.1)).sum

/-- pv_prime_r from src/derivatives/pv.rs; `fpow` models FloatLike::powf. -/
def pv_prime_r (fpow : ℚ → ℚ → ℚ) (rate n cash_flow : ℚ) : ℚ :=
  -cash_flow * n / fpow (rate + 1) (n + 1)

/-- pv_prime2_r from src/derivatives/pv.rs; `fpow` models FloatLike::powf. -/
def pv_prime2_r (fpow : ℚ → ℚ → ℚ) (rate n cash_flow : ℚ) : ℚ :=
  cash_flow * n * (n + 1) / fpow (rate + 1) (n + 2)

/-- irr from src/rate/irr/irr.rs: default the optional parameters, build the
objective and its two derivatives (powf at a natural-number exponent is a
monoid power, so the objective uses `^` directly while the derivative terms
go through pv_prime_r and `fpow`), and hand them to the Halley solver. -/
def irr (fpow : ℚ → ℚ → ℚ) (cash_flows : List ℚ)
    (guess tolerance : Option ℚ) (max_iter : Option ℕ) :
    Except (FinPrimError ℚ) ℚ :=
  let max_iter := max_iter.getD 20
  let tolerance := tolerance.getD (1 / 100000)
  let rate := guess.getD (1 / 10)
  let f := fun x => npv x cash_flows
  let f_prime := fun x =>
    (cash_flows.enum.map (fun p => pv_prime_r fpow x (p.1 : ℚ) p.2)).sum
  let f_prime2 := fun x =>
    (cash_flows.enum.map (fun p => pv_prime2_r fpow x (p.1 : ℚ) p.2)).sum
  halley rate f f_prime f_prime2 tolerance max_iter

/-- xnpv from src/tvm/pv.rs: `flow_table.first().unwrap()` panics on an
empty table, modelled as `none`; otherwise each flow is discounted over
(date − first date)/365 fractional years.  `fpow` models powd/powf at the
fractional exponent. -/
def xnpv (fpow : ℚ → ℚ → ℚ) (rate : ℚ) (flow_table : List (ℚ × ℤ)) :
    Option ℚ :=
  (flow_table.head?).map fun first =>
    (flow_table.map (fun p =>
      let years : ℚ := ((p.2 - first.2 : ℤ) : ℚ) / 365
      p.1 / fpow (1 + rate) years)).sum

/-- xirr from src/rate/irr/irr.rs: `flow_table.first().unwrap()` panics on
an empty table, modelled as `none`.  On a non-empty table the objective is
xnpv (whose own unwrap of the same non-empty table succeeds, so `getD 0`
never supplies the default) and the derivatives sum pv_prime_r/pv_prime2_r
over the fractional year counts; all three are handed to the Halley solver. -/
def xirr (fpow : ℚ → ℚ → ℚ) (flow_table : List (ℚ × ℤ))
    (guess tolerance : Option ℚ) (max_iter : Option ℕ) :
    Option (Except (FinPrimError ℚ) ℚ) :=
  let max_iter := max_iter.getD 20
  let tolerance := tolerance.getD (1 / 100000)
  (flow_table.head?).map fun first =>
    let init_date := first.2
    let rate := guess.getD (1 / 10)
    let f := fun x => (xnpv fpow x flow_table).getD 0
    let f_prime := fun x =>
      (flow_table.map (fun p =>
        pv_prime_r fpow x (((p.2 - init_date : ℤ) : ℚ) / 365) p.1)).sum
    let f_prime2 := fun x =>
      (flow_table.map (fun p =>
        pv_prime2_r fpow x (((p.2 - init_date : ℤ) : ℚ) / 365) p.1)).sum
    halley rate f f_prime f_prime2 tolerance max_iter

/-- A concrete instance of `fpow` for witnesses: a rational power that
agrees with the monoid power at natural-number exponents. -/
def natExpPow (a b : ℚ) : ℚ := a ^ b.num.toNat

/-! ### Helper lemmas about the rounding selection -/

/-- The fractional part `shifted - floor(shifted)` is nonnegative, so the
inner `abs` in the midpoint guard of round_with_mode is the identity. -/
lemma abs_sub_floor (x : ℚ) : |x - ⌊x⌋| = x - ⌊x⌋ :=
  abs_of_nonneg (by linarith [Int.floor_le x])

/-- The midpoint guard of the source, `(diff.abs() - 0.5).abs() > eps`
being false, is equivalent to the spec formulation without the inner abs. -/
lemma midpoint_guard_iff (x ε : ℚ) :
    ¬ |(|x - ⌊x⌋| - 1 / 2)| > ε ↔ |x - ⌊x⌋ - 1 / 2| ≤ ε := by
  rw [abs_sub_floor, not_lt]

/-- On the midpoint branch, the integer selected by each of the three
half-modes. -/
lemma shiftedRounded_of_mid (v : ℚ) (dp : ℕ) (ε : ℚ)
    (h : |v * 10 ^ dp - ⌊v * 10 ^ dp⌋ - 1 / 2| ≤ ε) :
    shiftedRounded v dp RoundingMode.HalfToEven ε =
      (if ⌊v * 10 ^ dp⌋ % 2 = 0 then ⌊v * 10 ^ dp⌋ else ⌈v * 10 ^ dp⌉) ∧
    shiftedRounded v dp RoundingMode.HalfTowardZero ε =
      (if 0 < v * 10 ^ dp then ⌊v * 10 ^ dp⌋ else ⌈v * 10 ^ dp⌉) ∧
    shiftedRounded v dp RoundingMode.HalfAwayFromZero ε =
      (if 0 < v * 10 ^ dp then ⌈v * 10 ^ dp⌉ else ⌊v * 10 ^ dp⌋) := by
  have hg : ¬ |(|v * 10 ^ dp - ⌊v * 10 ^ dp⌋| - 1 / 2)| > ε :=
    (midpoint_guard_iff (v * 10 ^ dp) ε).mpr h
  refine ⟨?_, ?_, ?_⟩ <;> simp only [shiftedRounded, if_neg hg]

/-- Off the midpoint branch, the three half-modes all select the naive
rounding. -/
lemma shiftedRounded_of_not_mid (v : ℚ) (dp : ℕ) (ε : ℚ)
    (h : |v * 10 ^ dp - ⌊v * 10 ^ dp⌋ - 1 / 2| > ε) :
    shiftedRounded v dp RoundingMode.HalfToEven ε = rustRound (v * 10 ^ dp) ∧
    shiftedRounded v dp RoundingMode.HalfTowardZero ε = rustRound (v * 10 ^ dp) ∧
    shiftedRounded v dp RoundingMode.HalfAwayFromZero ε = rustRound (v * 10 ^ dp) := by
  have hg : |(|v * 10 ^ dp - ⌊v * 10 ^ dp⌋| - 1 / 2)| > ε := by
    rwa [abs_sub_floor]
  refine ⟨?_, ?_, ?_⟩ <;> simp only [shiftedRounded, if_pos hg]

/-- The four direction modes ignore the midpoint machinery entirely. -/
lemma shiftedRounded_directional (v : ℚ) (dp : ℕ) (ε : ℚ) :
    shiftedRounded v dp RoundingMode.TowardZero ε =
      (if 0 < v * 10 ^ dp then ⌊v * 10 ^ dp⌋ else ⌈v * 10 ^ dp⌉) ∧
    shiftedRounded v dp RoundingMode.AwayFromZero ε =
      (if 0 < v * 10 ^ dp then ⌈v * 10 ^ dp⌉ else ⌊v * 10 ^ dp⌋) ∧
    shiftedRounded v dp RoundingMode.ToNegativeInfinity ε = ⌊v * 10 ^ dp⌋ ∧
    shiftedRounded v dp RoundingMode.ToInfinity ε = ⌈v * 10 ^ dp⌉ := by
  refine ⟨?_, ?_, ?_, ?_⟩ <;> simp only [shiftedRounded]

/-- The sign of the scaled value agrees with the sign of the value. -/
lemma shifted_pos_iff (v : ℚ) (dp : ℕ) : 0 < v * 10 ^ dp ↔ 0 < v := by
  have hp : (0 : ℚ) < 10 ^ dp := by positivity
  constructor
  · intro h
    by_contra hv
    push_neg at hv
    nlinarith
  · intro h
    positivity

/-- C3: for the binary floating-point round_with_mode, the scaled value is
treated as a midpoint iff |(shifted − floor shifted) − 1/2| ≤ ε, and at a
midpoint HalfToEven picks floor when floor is even and ceil otherwise,
HalfTowardZero picks floor for positive values else ceil, HalfAwayFromZero
picks ceil for positive values else floor; for input 5/2 at dp = 0 the seven
modes return 2, 3, 2, 2, 3, 2, 3. -/
theorem round_with_mode_midpoint_spec :
    (∀ v : ℚ, ∀ dp : ℕ, ∀ ε : ℚ,
      (¬ |(|v * 10 ^ dp - ⌊v * 10 ^ dp⌋| - 1 / 2)| > ε ↔
        |v * 10 ^ dp - ⌊v * 10 ^ dp⌋ - 1 / 2| ≤ ε)) ∧
    (∀ v : ℚ, ∀ dp : ℕ, ∀ ε : ℚ,
      |v * 10 ^ dp - ⌊v * 10 ^ dp⌋ - 1 / 2| ≤ ε →
      round_with_mode v dp RoundingMode.HalfToEven ε =
        (if ⌊v * 10 ^ dp⌋ % 2 = 0 then (⌊v * 10 ^ dp⌋ : ℚ)
          else (⌈v * 10 ^ dp⌉ : ℚ)) / 10 ^ dp ∧
      round_with_mode v dp RoundingMode.HalfTowardZero ε =
        (if 0 < v then (⌊v * 10 ^ dp⌋ : ℚ) else (⌈v * 10 ^ dp⌉ : ℚ)) / 10 ^ dp ∧
      round_with_mode v dp RoundingMode.HalfAwayFromZero ε =
        (if 0 < v then (⌈v * 10 ^ dp⌉ : ℚ) else (⌊v * 10 ^ dp⌋ : ℚ)) / 10 ^ dp) ∧
    round_with_mode (5 / 2) 0 RoundingMode.HalfToEven (1 / 100000) = 2 ∧
    round_with_mode (5 / 2) 0 RoundingMode.HalfAwayFromZero (1 / 100000) = 3 ∧
    round_with_mode (5 / 2) 0 RoundingMode.HalfTowardZero (1 / 100000) = 2 ∧
    round_with_mode (5 / 2) 0 RoundingMode.TowardZero (1 / 100000) = 2 ∧
    round_with_mode (5 / 2) 0 RoundingMode.AwayFromZero (1 / 100000) = 3 ∧
    round_with_mode (5 / 2) 0 RoundingMode.ToNegativeInfinity (1 / 100000) = 2 ∧
    round_with_mode (5 / 2) 0 RoundingMode.ToInfinity (1 / 100000) = 3 := by
  have hmid : ∀ v : ℚ, ∀ dp : ℕ, ∀ ε : ℚ,
      |v * 10 ^ dp - ⌊v * 10 ^ dp⌋ - 1 / 2| ≤ ε →
      round_with_mode v dp RoundingMode.HalfToEven ε =
        (if ⌊v * 10 ^ dp⌋ % 2 = 0 then (⌊v * 10 ^ dp⌋ : ℚ)
          else (⌈v * 10 ^ dp⌉ : ℚ)) / 10 ^ dp ∧
      round_with_mode v dp RoundingMode.HalfTowardZero ε =
        (if 0 < v then (⌊v * 10 ^ dp⌋ : ℚ) else (⌈v * 10 ^ dp⌉ : ℚ)) / 10 ^ dp ∧
      round_with_mode v dp RoundingMode.HalfAwayFromZero ε =
        (if 0 < v then (⌈v * 10 ^ dp⌉ : ℚ) else (⌊v * 10 ^ dp⌋ : ℚ)) / 10 ^ dp := by
    intro v dp ε h
    obtain ⟨h1, h2, h3⟩ := shiftedRounded_of_mid v dp ε h
    refine ⟨?_, ?_, ?_⟩
    · rw [round_with_mode, h1]
      split_ifs <;> rfl
    · rw [round_with_mode, h2]
      simp only [shifted_pos_iff]
      split_ifs <;> rfl
    · rw [round_with_mode, h3]
      simp only [shifted_pos_iff]
      split_ifs <;> rfl
  have hdir := shiftedRounded_directional (5 / 2 : ℚ) 0 (1 / 100000)
  refine ⟨fun v dp ε => midpoint_guard_iff (v * 10 ^ dp) ε, hmid,
    ?_, ?_, ?_, ?_, ?_, ?_, ?_⟩
  · rw [(hmid (5 / 2) 0 (1 / 100000) (by norm_num)).1]
    norm_num
  · rw [(hmid (5 / 2) 0 (1 / 100000) (by norm_num)).2.2]
    norm_num
    exact_mod_cast show ⌈(5:ℚ)/2⌉ = 3 by norm_num [Int.ceil_eq_iff]
  · rw [(hmid (5 / 2) 0 (1 / 100000) (by norm_num)).2.1]
    norm_num
  · rw [round_with_mode, hdir.1]
    norm_num
  · rw [round_with_mode, hdir.2.1]
    norm_num
    exact_mod_cast show ⌈(5:ℚ)/2⌉ = 3 by norm_num [Int.ceil_eq_iff]
  · rw [round_with_mode, hdir.2.2.1]
    norm_num
  · rw [round_with_mode, hdir.2.2.2]
    norm_num
    exact_mod_cast show ⌈(5:ℚ)/2⌉ = 3 by norm_num [Int.ceil_eq_iff]

/-- Witness for round_with_mode_midpoint_spec: 7/2 is a midpoint at dp = 0;
its floor 3 is odd, so HalfToEven rounds up to 4. -/
theorem round_with_mode_midpoint_spec_witness :
    round_with_mode (7 / 2) 0 RoundingMode.HalfToEven (1 / 1000) = 4 := by
  rw [(round_with_mode_midpoint_spec.2.1 (7 / 2) 0 (1 / 1000) (by norm_num)).1]
  norm_num
  exact_mod_cast show ⌈(7:ℚ)/2⌉ = 4 by norm_num [Int.ceil_eq_iff]

/-- C4: away from midpoints the three half-modes all return the naive
ties-away-from-zero rounding; TowardZero, AwayFromZero, ToNegativeInfinity
and ToInfinity follow plain floor/ceil selection unconditionally; for input
333/1000 at dp = 2 the seven modes return 0.33 or 0.34 accordingly. -/
theorem round_with_mode_nonmidpoint_spec :
    (∀ v : ℚ, ∀ dp : ℕ, ∀ ε : ℚ,
      |v * 10 ^ dp - ⌊v * 10 ^ dp⌋ - 1 / 2| > ε →
      round_with_mode v dp RoundingMode.HalfToEven ε =
        (rustRound (v * 10 ^ dp) : ℚ) / 10 ^ dp ∧
      round_with_mode v dp RoundingMode.HalfAwayFromZero ε =
        (rustRound (v * 10 ^ dp) : ℚ) / 10 ^ dp ∧
      round_with_mode v dp RoundingMode.HalfTowardZero ε =
        (rustRound (v * 10 ^ dp) : ℚ) / 10 ^ dp) ∧
    (∀ v : ℚ, ∀ dp : ℕ, ∀ ε : ℚ,
      round_with_mode v dp RoundingMode.TowardZero ε =
        (if 0 < v then (⌊v * 10 ^ dp⌋ : ℚ) else (⌈v * 10 ^ dp⌉ : ℚ)) / 10 ^ dp ∧
      round_with_mode v dp RoundingMode.AwayFromZero ε =
        (if 0 < v then (⌈v * 10 ^ dp⌉ : ℚ) else (⌊v * 10 ^ dp⌋ : ℚ)) / 10 ^ dp ∧
      round_with_mode v dp RoundingMode.ToNegativeInfinity ε =
        (⌊v * 10 ^ dp⌋ : ℚ) / 10 ^ dp ∧
      round_with_mode v dp RoundingMode.ToInfinity ε =
        (⌈v * 10 ^ dp⌉ : ℚ) / 10 ^ dp) ∧
    round_with_mode (333 / 1000) 2 RoundingMode.HalfToEven (1 / 100000) = 33 / 100 ∧
    round_with_mode (333 / 1000) 2 RoundingMode.HalfAwayFromZero (1 / 100000) = 33 / 100 ∧
    round_with_mode (333 / 1000) 2 RoundingMode.HalfTowardZero (1 / 100000) = 33 / 100 ∧
    round_with_mode (333 / 1000) 2 RoundingMode.TowardZero (1 / 100000) = 33 / 100 ∧
    round_with_mode (333 / 1000) 2 RoundingMode.AwayFromZero (1 / 100000) = 34 / 100 ∧
    round_with_mode (333 / 1000) 2 RoundingMode.ToNegativeInfinity (1 / 100000) = 33 / 100 ∧
    round_with_mode (333 / 1000) 2 RoundingMode.ToInfinity (1 / 100000) = 34 / 100 := by
  have hnm : ∀ v : ℚ, ∀ dp : ℕ, ∀ ε : ℚ,
      |v * 10 ^ dp - ⌊v * 10 ^ dp⌋ - 1 / 2| > ε →
      round_with_mode v dp RoundingMode.HalfToEven ε =
        (rustRound (v * 10 ^ dp) : ℚ) / 10 ^ dp ∧
      round_with_mode v dp RoundingMode.HalfAwayFromZero ε =
        (rustRound (v * 10 ^ dp) : ℚ) / 10 ^ dp ∧
      round_with_mode v dp RoundingMode.HalfTowardZero ε =
        (rustRound (v * 10 ^ dp) : ℚ) / 10 ^ dp := by
    intro v dp ε h
    obtain ⟨h1, h2, h3⟩ := shiftedRounded_of_not_mid v dp ε h
    exact ⟨by rw [round_with_mode, h1], by rw [round_with_mode, h3],
      by rw [round_with_mode, h2]⟩
  have hdir : ∀ v : ℚ, ∀ dp : ℕ, ∀ ε : ℚ,
      round_with_mode v dp RoundingMode.TowardZero ε =
        (if 0 < v then (⌊v * 10 ^ dp⌋ : ℚ) else (⌈v * 10 ^ dp⌉ : ℚ)) / 10 ^ dp ∧
      round_with_mode v dp RoundingMode.AwayFromZero ε =
        (if 0 < v then (⌈v * 10 ^ dp⌉ : ℚ) else (⌊v * 10 ^ dp⌋ : ℚ)) / 10 ^ dp ∧
      round_with_mode v dp RoundingMode.ToNegativeInfinity ε =
        (⌊v * 10 ^ dp⌋ : ℚ) / 10 ^ dp ∧
      round_with_mode v dp RoundingMode.ToInfinity ε =
        (⌈v * 10 ^ dp⌉ : ℚ) / 10 ^ dp := by
    intro v dp ε
    obtain ⟨h1, h2, h3, h4⟩ := shiftedRounded_directional v dp ε
    refine ⟨?_, ?_, by rw [round_with_mode, h3], by rw [round_with_mode, h4]⟩
    · rw [round_with_mode, h1]
      simp only [shifted_pos_iff]
      split_ifs <;> rfl
    · rw [round_with_mode, h2]
      simp only [shifted_pos_iff]
      split_ifs <;> rfl
  refine ⟨hnm, hdir, ?_, ?_, ?_, ?_, ?_, ?_, ?_⟩
  · rw [(hnm (333 / 1000) 2 (1 / 100000) (by norm_num [lt_abs])).1]
    norm_num [rustRound]
  · rw [(hnm (333 / 1000) 2 (1 / 100000) (by norm_num [lt_abs])).2.1]
    norm_num [rustRound]
  · rw [(hnm (333 / 1000) 2 (1 / 100000) (by norm_num [lt_abs])).2.2]
    norm_num [rustRound]
  · rw [(hdir (333 / 1000) 2 (1 / 100000)).1]
    norm_num
  · rw [(hdir (333 / 1000) 2 (1 / 100000)).2.1]
    norm_num
    rw [show ⌈(333:ℚ)/10⌉ = 34 from by norm_num [Int.ceil_eq_iff]]
    norm_num
  · rw [(hdir (333 / 1000) 2 (1 / 100000)).2.2.1]
    norm_num
  · rw [(hdir (333 / 1000) 2 (1 / 100000)).2.2.2]
    norm_num
    rw [show ⌈(333:ℚ)/10⌉ = 34 from by norm_num [Int.ceil_eq_iff]]
    norm_num

/-- Witness for round_with_mode_nonmidpoint_spec: 7/10 at dp = 0 is not
near a midpoint, and the naive rounding sends it to 1. -/
theorem round_with_mode_nonmidpoint_spec_witness :
    round_with_mode (7 / 10) 0 RoundingMode.HalfToEven (1 / 100000) = 1 := by
  rw [(round_with_mode_nonmidpoint_spec.1 (7 / 10) 0 (1 / 100000) (by norm_num [lt_abs])).1]
  norm_num [rustRound]

/-- The naive rounding fixes integers. -/
lemma rustRound_intCast (k : ℤ) : rustRound (k : ℚ) = k := by
  unfold rustRound
  split_ifs with h
  · rw [show (k : ℚ) + 1 / 2 = (1 : ℚ) / 2 + k by ring, Int.floor_add_int]
    norm_num
  · rw [show (k : ℚ) - 1 / 2 = -((1 : ℚ) / 2) + k by ring, Int.ceil_add_int]
    norm_num

/-- A value whose scaled form is an integer is a fixed point of the
floating-point round_with_mode, for every mode and epsilon. -/
lemma round_with_mode_fixed (v : ℚ) (dp : ℕ) (mode : RoundingMode) (ε : ℚ)
    (k : ℤ) (h : v * 10 ^ dp = k) :
    round_with_mode v dp mode ε = v := by
  have hfac : ((10 : ℚ) ^ dp) ≠ 0 := by positivity
  have hv : v = (k : ℚ) / 10 ^ dp := by
    field_simp
    exact h
  have hsel : shiftedRounded v dp mode ε = k := by
    simp only [shiftedRounded, h, Int.floor_intCast, Int.ceil_intCast,
      rustRound_intCast, sub_self]
    cases mode <;> split_ifs <;> rfl
  rw [round_with_mode, hsel, ← hv]

/-- A value whose scaled form is an integer is a fixed point of the decimal
round_dp_with_strategy, for every strategy. -/
lemma round_dp_with_strategy_fixed (v : ℚ) (dp : ℕ)
    (strategy : RoundingStrategy) (k : ℤ) (h : v * 10 ^ dp = k) :
    round_dp_with_strategy v dp strategy = v := by
  have hfac : ((10 : ℚ) ^ dp) ≠ 0 := by positivity
  have hv : v = (k : ℚ) / 10 ^ dp := by
    field_simp
    exact h
  have hsel : strategySel v dp strategy = k := by
    simp only [strategySel, h, Int.floor_intCast, Int.ceil_intCast, sub_self]
    cases strategy <;> split_ifs <;> rfl
  rw [round_dp_with_strategy, hsel, ← hv]

/-- C9: rounding is idempotent at the same decimal places, mode and
epsilon, for the floating-point implementation and for the Decimal
implementation of round_with_mode. -/
theorem round_with_mode_idempotent :
    (∀ v : ℚ, ∀ dp : ℕ, ∀ mode : RoundingMode, ∀ ε : ℚ,
      round_with_mode (round_with_mode v dp mode ε) dp mode ε =
        round_with_mode v dp mode ε) ∧
    (∀ v : ℚ, ∀ dp : ℕ, ∀ mode : RoundingMode, ∀ ε : ℚ,
      decimal_round_with_mode (decimal_round_with_mode v dp mode ε) dp mode ε =
        decimal_round_with_mode v dp mode ε) := by
  have hfac : ∀ dp : ℕ, ((10 : ℚ) ^ dp) ≠ 0 := fun dp => by positivity
  constructor
  · intro v dp mode ε
    exact round_with_mode_fixed _ dp mode ε (shiftedRounded v dp mode ε)
      (div_mul_cancel₀ _ (hfac dp))
  · intro v dp mode ε
    exact round_dp_with_strategy_fixed _ dp _ (strategySel v dp _)
      (div_mul_cancel₀ _ (hfac dp))

/-- C1: newton_raphson is the specified loop.  With budget 0 it reports
FailedToConverge at the current point; with budget m+1 it returns Ok(x)
when |f x| < tolerance, reports DivideByZero{x, f x} when the derivative
vanishes at a non-converged x (so with a zero derivative at the guess the
reported last_x is the guess), and otherwise recurses on
x − f x / f_prime x with budget m; in particular with max_iter = 1, a
non-converged guess and a nonzero derivative it performs exactly one
update and reports FailedToConverge there. -/
theorem newton_raphson_spec :
    (∀ f f_prime : ℚ → ℚ, ∀ tolerance x : ℚ,
      newton_raphson x f f_prime tolerance 0 =
        Except.error (FinPrimError.RootFindingError
          (RootFindingError.FailedToConverge x (f x)))) ∧
    (∀ f f_prime : ℚ → ℚ, ∀ tolerance x : ℚ, ∀ m : ℕ,
      (|f x| < tolerance →
        newton_raphson x f f_prime tolerance (m + 1) = Except.ok x) ∧
      (¬ |f x| < tolerance → f_prime x = 0 →
        newton_raphson x f f_prime tolerance (m + 1) =
          Except.error (FinPrimError.RootFindingError
            (RootFindingError.DivideByZero x (f x)))) ∧
      (¬ |f x| < tolerance → f_prime x ≠ 0 →
        newton_raphson x f f_prime tolerance (m + 1) =
          newton_raphson (x - f x / f_prime x) f f_prime tolerance m)) ∧
    (∀ f f_prime : ℚ → ℚ, ∀ tolerance x : ℚ,
      ¬ |f x| < tolerance → f_prime x ≠ 0 →
        newton_raphson x f f_prime tolerance 1 =
          Except.error (FinPrimError.RootFindingError
            (RootFindingError.FailedToConverge (x - f x / f_prime x)
              (f (x - f x / f_prime x))))) := by
  have hstep : ∀ f f_prime : ℚ → ℚ, ∀ tolerance x : ℚ, ∀ m : ℕ,
      (|f x| < tolerance →
        newton_raphson x f f_prime tolerance (m + 1) = Except.ok x) ∧
      (¬ |f x| < tolerance → f_prime x = 0 →
        newton_raphson x f f_prime tolerance (m + 1) =
          Except.error (FinPrimError.RootFindingError
            (RootFindingError.DivideByZero x (f x)))) ∧
      (¬ |f x| < tolerance → f_prime x ≠ 0 →
        newton_raphson x f f_prime tolerance (m + 1) =
          newton_raphson (x - f x / f_prime x) f f_prime tolerance m) := by
    intro f f_prime tolerance x m
    refine ⟨fun h => ?_, fun h h0 => ?_, fun h h0 => ?_⟩
    · simp only [newton_raphson, newton_raphson_go, if_pos h]
    · simp only [newton_raphson, newton_raphson_go, if_neg h, if_pos h0]
    · simp only [newton_raphson, newton_raphson_go, if_neg h, if_neg h0]
  refine ⟨fun f f_prime tolerance x => rfl, hstep, ?_⟩
  intro f f_prime tolerance x h h0
  rw [(hstep f f_prime tolerance x 0).2.2 h h0]
  rfl

/-- Witness for newton_raphson_spec: objective x with zero derivative at
the non-converged guess 1 reports DivideByZero with last_x the guess. -/
theorem newton_raphson_spec_witness :
    newton_raphson 1 (fun x => x) (fun _ => 0) (1 / 2) 1 =
      Except.error (FinPrimError.RootFindingError
        (RootFindingError.DivideByZero 1 1)) := by
  have h := (newton_raphson_spec.2.1 (fun x => x) (fun _ => 0) (1 / 2) 1 0).2.1
    (by norm_num) rfl
  simpa using h

/-- C2: halley iterates with the update
x ← x − (2 f x f_prime x) / (2 f_prime x² − f x f_prime2 x): step_halley
produces exactly that numerator and denominator, budget 0 reports
FailedToConverge at the current point, budget m+1 returns Ok(x) when
|f x| < tolerance, reports DivideByZero{x, f x} exactly when the
denominator vanishes at a non-converged x, and otherwise recurses on the
updated point with budget m — the same shape as Newton-Raphson. -/
theorem halley_spec :
    (∀ f_x f_prime_x f_prime2_x : ℚ,
      step_halley f_x f_prime_x f_prime2_x =
        (2 * f_x * f_prime_x, 2 * f_prime_x ^ 2 - f_x * f_prime2_x)) ∧
    (∀ f f_prime f_prime2 : ℚ → ℚ, ∀ tolerance x : ℚ,
      halley x f f_prime f_prime2 tolerance 0 =
        Except.error (FinPrimError.RootFindingError
          (RootFindingError.FailedToConverge x (f x)))) ∧
    (∀ f f_prime f_prime2 : ℚ → ℚ, ∀ tolerance x : ℚ, ∀ m : ℕ,
      (|f x| < tolerance →
        halley x f f_prime f_prime2 tolerance (m + 1) = Except.ok x) ∧
      (¬ |f x| < tolerance → 2 * f_prime x ^ 2 - f x * f_prime2 x = 0 →
        halley x f f_prime f_prime2 tolerance (m + 1) =
          Except.error (FinPrimError.RootFindingError
            (RootFindingError.DivideByZero x (f x)))) ∧
      (¬ |f x| < tolerance → 2 * f_prime x ^ 2 - f x * f_prime2 x ≠ 0 →
        halley x f f_prime f_prime2 tolerance (m + 1) =
          halley (x - 2 * f x * f_prime x /
              (2 * f_prime x ^ 2 - f x * f_prime2 x))
            f f_prime f_prime2 tolerance m)) := by
  refine ⟨fun a b c => by simp only [step_halley]; ring_nf,
    fun f f_prime f_prime2 tolerance x => rfl, ?_⟩
  intro f f_prime f_prime2 tolerance x m
  have hden : (step_halley (f x) (f_prime x) (f_prime2 x)).2 =
      2 * f_prime x ^ 2 - f x * f_prime2 x := by
    simp only [step_halley]
    ring
  have hnum : (step_halley (f x) (f_prime x) (f_prime2 x)).1 =
      2 * f x * f_prime x := rfl
  refine ⟨fun h => ?_, fun h h0 => ?_, fun h h0 => ?_⟩
  · simp only [halley, halley_go, if_pos h]
  · simp only [halley, halley_go, if_neg h, hden, if_pos h0]
  · simp only [halley, halley_go, if_neg h, hden, hnum, if_neg h0]

/-- Witness for halley_spec: objective x with unit first derivative and
zero second derivative at guess 1, budget 1: one Halley update lands on 0
and the budget runs out there. -/
theorem halley_spec_witness :
    halley 1 (fun x => x) (fun _ => 1) (fun _ => 0) (1 / 2) 1 =
      Except.error (FinPrimError.RootFindingError
        (RootFindingError.FailedToConverge 0 0)) := by
  have h := (halley_spec.2.2 (fun x => x) (fun _ => 1) (fun _ => 0) (1 / 2) 1 0).2.2
    (by norm_num) (by norm_num)
  norm_num at h
  rw [h]
  rfl

/-- One solver step when already converged (shared helper). -/
lemma halley_go_ok (f f_prime f_prime2 : ℚ → ℚ) (tolerance : ℚ) (n : ℕ)
    (x fx : ℚ) (h : |fx| < tolerance) :
    halley_go f f_prime f_prime2 tolerance (n + 1) x fx = Except.ok x := by
  simp only [halley_go, if_pos h]

/-- C8: passing None for the optional parameters of irr and xirr is the
same as passing the documented defaults guess = 0.1, tolerance = 1e-5,
max_iter = 20 explicitly. -/
theorem irr_xirr_defaults :
    (∀ fpow : ℚ → ℚ → ℚ, ∀ cash_flows : List ℚ,
      irr fpow cash_flows none none none =
        irr fpow cash_flows (some (1 / 10)) (some (1 / 100000)) (some 20)) ∧
    (∀ fpow : ℚ → ℚ → ℚ, ∀ flow_table : List (ℚ × ℤ),
      xirr fpow flow_table none none none =
        xirr fpow flow_table (some (1 / 10)) (some (1 / 100000)) (some 20)) :=
  ⟨fun _ _ => rfl, fun _ _ => rfl⟩

/-- Written from the words of the spec, for comparison with irr: the
objective f(r) = Σ cfₜ / (1+r)^t over position indices t. -/
def irrSpecObjective (cash_flows : List ℚ) (r : ℚ) : ℚ :=
  (cash_flows.enum.map (fun p => p.2 / (1 + r) ^ p.1)).sum

/-- Written from the words of the spec: the closed-form derivative
fʹ(r) = Σ −cfₜ·t / (1+r)^(t+1). -/
def irrSpecDerivative (cash_flows : List ℚ) (r : ℚ) : ℚ :=
  (cash_flows.enum.map (fun p => -p.2 * (p.1 : ℚ) / (1 + r) ^ (p.1 + 1))).sum

/-- Written from the words of the spec: the second derivative
f″(r) = Σ cfₜ·t·(t+1) / (1+r)^(t+2). -/
def irrSpecDerivative2 (cash_flows : List ℚ) (r : ℚ) : ℚ :=
  (cash_flows.enum.map
    (fun p => p.2 * (p.1 : ℚ) * ((p.1 : ℚ) + 1) / (1 + r) ^ (p.1 + 2))).sum

/-- C5: irr builds exactly the three spec callables and returns the halley
result on them unchanged, with the caller parameters or the defaults.  The
hypothesis pins the modelled powf down to the monoid power at the
natural-number exponents irr uses. -/
theorem irr_feeds_spec_callables_to_halley (fpow : ℚ → ℚ → ℚ)
    (hfp : ∀ a : ℚ, ∀ k : ℕ, fpow a (k : ℚ) = a ^ k)
    (cash_flows : List ℚ) (guess tolerance : Option ℚ)
    (max_iter : Option ℕ) :
    irr fpow cash_flows guess tolerance max_iter =
      halley (guess.getD (1 / 10)) (irrSpecObjective cash_flows)
        (irrSpecDerivative cash_flows) (irrSpecDerivative2 cash_flows)
        (tolerance.getD (1 / 100000)) (max_iter.getD 20) := by
  have h1 : (fun x => npv x cash_flows) = irrSpecObjective cash_flows := rfl
  have h2 : (fun x =>
      (cash_flows.enum.map (fun p => pv_prime_r fpow x (p.1 : ℚ) p.2)).sum) =
      irrSpecDerivative cash_flows := by
    funext x
    rw [irrSpecDerivative]
    congr 1
    congr 1
    funext p
    rw [pv_prime_r, show ((p.1 : ℚ) + 1) = ((p.1 + 1 : ℕ) : ℚ) by push_cast; ring,
      hfp, add_comm x 1]
  have h3 : (fun x =>
      (cash_flows.enum.map (fun p => pv_prime2_r fpow x (p.1 : ℚ) p.2)).sum) =
      irrSpecDerivative2 cash_flows := by
    funext x
    rw [irrSpecDerivative2]
    congr 1
    congr 1
    funext p
    rw [pv_prime2_r, show ((p.1 : ℚ) + 2) = ((p.1 + 2 : ℕ) : ℚ) by push_cast; ring,
      hfp, add_comm x 1]
  simp only [irr]
  rw [h1, h2, h3]

/-- Witness for irr_feeds_spec_callables_to_halley at a concrete power
function and cash-flow list. -/
theorem irr_feeds_spec_callables_to_halley_witness :
    irr natExpPow [(-1 : ℚ), 2] none none none =
      halley (1 / 10) (irrSpecObjective [(-1 : ℚ), 2])
        (irrSpecDerivative [(-1 : ℚ), 2]) (irrSpecDerivative2 [(-1 : ℚ), 2])
        (1 / 100000) 20 :=
  irr_feeds_spec_callables_to_halley natExpPow
    (fun a k => by simp [natExpPow]) [(-1 : ℚ), 2] none none none

/-- C6: xnpv discounts each entry over (dateᵢ − date₀)/365 years with the
first offset as time zero, and permuting the entries after the first
changes neither xnpv nor xirr. -/
theorem xnpv_xirr_first_entry_time_zero :
    (∀ fpow : ℚ → ℚ → ℚ, ∀ rate : ℚ, ∀ h : ℚ × ℤ, ∀ tl : List (ℚ × ℤ),
      xnpv fpow rate (h :: tl) =
        some (((h :: tl).map (fun p =>
          p.1 / fpow (1 + rate) (((p.2 - h.2 : ℤ) : ℚ) / 365))).sum)) ∧
    (∀ fpow : ℚ → ℚ → ℚ, ∀ rate : ℚ, ∀ h : ℚ × ℤ,
      ∀ tl tl' : List (ℚ × ℤ), tl.Perm tl' →
      xnpv fpow rate (h :: tl) = xnpv fpow rate (h :: tl')) ∧
    (∀ fpow : ℚ → ℚ → ℚ, ∀ h : ℚ × ℤ, ∀ tl tl' : List (ℚ × ℤ),
      ∀ guess tolerance : Option ℚ, ∀ max_iter : Option ℕ, tl.Perm tl' →
      xirr fpow (h :: tl) guess tolerance max_iter =
        xirr fpow (h :: tl') guess tolerance max_iter) := by
  have hsum : ∀ g : ℚ × ℤ → ℚ, ∀ h : ℚ × ℤ, ∀ tl tl' : List (ℚ × ℤ),
      tl.Perm tl' →
      ((h :: tl).map g).sum = ((h :: tl').map g).sum := by
    intro g h tl tl' hp
    simp only [List.map_cons, List.sum_cons]
    rw [(hp.map g).sum_eq]
  have hxnpv : ∀ fpow : ℚ → ℚ → ℚ, ∀ rate : ℚ, ∀ h : ℚ × ℤ,
      ∀ tl tl' : List (ℚ × ℤ), tl.Perm tl' →
      xnpv fpow rate (h :: tl) = xnpv fpow rate (h :: tl') := by
    intro fpow rate h tl tl' hp
    simp only [xnpv, List.head?_cons, Option.map_some']
    congr 1
    exact hsum _ h tl tl' hp
  refine ⟨fun fpow rate h tl => rfl, hxnpv, ?_⟩
  intro fpow h tl tl' guess tolerance max_iter hp
  have hf : (fun x => (xnpv fpow x (h :: tl)).getD 0) =
      (fun x => (xnpv fpow x (h :: tl')).getD 0) := by
    funext x
    rw [hxnpv fpow x h tl tl' hp]
  have hd1 : (fun x => (List.map
        (fun p => pv_prime_r fpow x (((p.2 - h.2 : ℤ) : ℚ) / 365) p.1)
        (h :: tl)).sum) =
      (fun x => (List.map
        (fun p => pv_prime_r fpow x (((p.2 - h.2 : ℤ) : ℚ) / 365) p.1)
        (h :: tl')).sum) := by
    funext x
    exact hsum _ h tl tl' hp
  have hd2 : (fun x => (List.map
        (fun p => pv_prime2_r fpow x (((p.2 - h.2 : ℤ) : ℚ) / 365) p.1)
        (h :: tl)).sum) =
      (fun x => (List.map
        (fun p => pv_prime2_r fpow x (((p.2 - h.2 : ℤ) : ℚ) / 365) p.1)
        (h :: tl')).sum) := by
    funext x
    exact hsum _ h tl tl' hp
  simp only [xirr, List.head?_cons, Option.map_some']
  rw [hf, hd1, hd2]

/-- Witness for xnpv_xirr_first_entry_time_zero: swapping the two entries
after the initial investment leaves xirr unchanged. -/
theorem xnpv_xirr_first_entry_time_zero_witness :
    xirr natExpPow [((-100 : ℚ), (0 : ℤ)), (50, 359), (40, 400)]
        none none none =
      xirr natExpPow [((-100 : ℚ), (0 : ℤ)), (40, 400), (50, 359)]
        none none none :=
  xnpv_xirr_first_entry_time_zero.2.2 natExpPow ((-100 : ℚ), (0 : ℤ))
    [(50, 359), (40, 400)] [(40, 400), (50, 359)] none none none
    (List.Perm.swap _ _ _)

/-- Counterexample to C7 as stated: on an empty flow table xirr hits
`flow_table.first().unwrap()` and panics (modelled as none) instead of
returning a Result. -/
theorem xirr_empty_table_panics :
    xirr natExpPow [] none none none = none := rfl

/-- C7 (amended): failures are returned as values — irr terminates with a
Result even on an empty cash-flow slice (it converges immediately to the
guess, since the empty NPV is 0), and xirr returns a Result for every
non-empty flow table; the empty flow table is excluded because there xirr
panics on the unwrap. -/
theorem results_not_panics :
    (∀ fpow : ℚ → ℚ → ℚ, ∀ g : ℚ,
      irr fpow [] (some g) none none = Except.ok g) ∧
    (∀ fpow : ℚ → ℚ → ℚ, ∀ flow_table : List (ℚ × ℤ),
      ∀ guess tolerance : Option ℚ, ∀ max_iter : Option ℕ,
      flow_table ≠ [] →
      (xirr fpow flow_table guess tolerance max_iter).isSome = true) := by
  constructor
  · intro fpow g
    simp only [irr, halley]
    exact halley_go_ok _ _ _ _ 19 g 0 (by norm_num)
  · intro fpow flow_table guess tolerance max_iter hne
    cases flow_table with
    | nil => exact absurd rfl hne
    | cons h tl => simp [xirr]

/-- Witness for results_not_panics on a one-entry flow table. -/
theorem results_not_panics_witness :
    (xirr natExpPow [((1 : ℚ), (0 : ℤ))] none none none).isSome = true :=
  results_not_panics.2 natExpPow [((1 : ℚ), (0 : ℤ))] none none none
    (by simp)

/-- C10: with max_iter = 0, both solvers report FailedToConverge carrying
the guess and f(guess), for every objective and tolerance — the tolerance
is never consulted, so even a converged guess is not returned as Ok. -/
theorem zero_budget_failed_to_converge :
    ∀ f f_prime f_prime2 : ℚ → ℚ, ∀ tolerance guess : ℚ,
      newton_raphson guess f f_prime tolerance 0 =
        Except.error (FinPrimError.RootFindingError
          (RootFindingError.FailedToConverge guess (f guess))) ∧
      halley guess f f_prime f_prime2 tolerance 0 =
        Except.error (FinPrimError.RootFindingError
          (RootFindingError.FailedToConverge guess (f guess))) :=
  fun _ _ _ _ _ => ⟨rfl, rfl⟩

end RustFinPrim
